import Mathlib

/-!
Shallow embedding of `src/scripts/quotes.js` (Material You NewTab quote widget).

The browser collaborators are modelled as follows.

* `localStorage` is a string-keyed association list.  Values are modelled by
  `Val`: `Val.str s` is a raw string value (counts, metadata timestamps,
  arbitrary garbage), `Val.quotesV q` is the string `JSON.stringify` of a quote
  array `q`, and `Val.timeV t` is the string `new Date(t).toISOString()`.
  The encode/decode pairs (`JSON.stringify`/`JSON.parse`,
  `toISOString`/`new Date(..).getTime()`) are platform primitives, so the
  embedding replaces them by constructors and pattern matches:
  `JSON.parse` succeeds exactly on `quotesV` values (a raw `str` that is not
  a serialized quote array throws a SyntaxError, modelled as `Except.error`;
  the empty string is falsy and short-circuits to `null` before parsing), and
  `new Date(s).getTime()` is a number exactly on `timeV` values (`NaN`,
  modelled as `none`, otherwise).  `parseInt` on a non-`str` value yields
  `none` (NaN): `JSON.stringify` of an array starts with a bracket, which
  `parseInt` rejects, and no code path stores an ISO date under a count key.
* `fetch` results are supplied by an environment `Env`: the multilingual
  metadata response, the per-language bulk quotes response, and the three
  alternative single-quote providers (already normalized to `Quote`), each
  either a value or a network/HTTP failure.  Every attempted fetch is recorded
  in a trace of `FetchCall`s so that claims about which providers are invoked
  can be stated.
* `navigator.onLine`, the global `currentLanguage` and `Date.now()` are inputs
  in `Env`; the module-global `lastKnownLanguage` is threaded through `St`.
-/

namespace Quotes

/-- A normalized quote, `{ quote, author }` as produced by the providers. -/
structure Quote where
  quote : String
  author : String
deriving DecidableEq, Repr

/-- Constant `FALLBACK_QUOTE` from `quotes.js`. -/
def FALLBACK_QUOTE : Quote :=
  { quote := "Don't watch the clock; do what it does. Keep going.", author := "Sam Levenson" }

/-- Constant `MIN_QUOTES_FOR_LANG` from `quotes.js`. -/
def MIN_QUOTES_FOR_LANG : Nat := 100

/-- Constant `ONE_DAY` (milliseconds) from `quotes.js`. -/
def ONE_DAY : Int := 24 * 60 * 60 * 1000

/-- A `localStorage` value, see the module docstring. -/
inductive Val where
  | str : String → Val
  | quotesV : List Quote → Val
  | timeV : Int → Val
deriving DecidableEq, Repr

/-- Whether the underlying string of a stored value is falsy (JS: only `""`). -/
def Val.isFalsy : Val → Bool
  | .str s => s == ""
  | .quotesV _ => false
  | .timeV _ => false

/-- The `localStorage` collaborator: ordered key/value pairs. -/
abbrev Store := List (String × Val)

/-- Operation `localStorage.getItem` (first binding wins; `none` is JS `null`). -/
def getItem : Store → String → Option Val
  | [], _ => none
  | kv :: rest, k => if kv.1 = k then some kv.2 else getItem rest k

/-- Operation `localStorage.setItem`: overwrite the existing binding or append. -/
def setItem : Store → String → Val → Store
  | [], k, v => [(k, v)]
  | kv :: rest, k, v => if kv.1 = k then (k, v) :: rest else kv :: setItem rest k v

/-- Operation `localStorage.removeItem`. -/
def removeItem : Store → String → Store
  | [], _ => []
  | kv :: rest, k => if kv.1 = k then removeItem rest k else kv :: removeItem rest k

/-- Truthiness of `localStorage.getItem(k)` (JS: `null` and `""` are falsy). -/
def itemTruthy (s : Store) (k : String) : Bool :=
  match getItem s k with
  | none => false
  | some v => !v.isFalsy

/-- Value of the leading run of decimal digits, if nonempty. -/
def leadingDigits (cs : List Char) : Option Nat :=
  let ds := cs.takeWhile Char.isDigit
  if ds.isEmpty then none
  else some (ds.foldl (fun a c => a * 10 + (c.toNat - 48)) 0)

/-- JS `parseInt` (radix 10): skip leading spaces, optional sign, then a
nonempty run of decimal digits; `none` is `NaN`. -/
def jsParseInt (s : String) : Option Int :=
  let cs := s.data.dropWhile (fun c => c == ' ')
  match cs with
  | '-' :: rest => (leadingDigits rest).map (fun n => -(n : Int))
  | '+' :: rest => (leadingDigits rest).map (fun n => (n : Int))
  | rest => (leadingDigits rest).map (fun n => (n : Int))

/-- Reading `parseInt(localStorage.getItem(k))`: `parseInt(null)` and `parseInt` of a
stringified array are `NaN`; see the module docstring for `timeV`. -/
def jsParseIntVal : Option Val → Option Int
  | some (.str s) => jsParseInt s
  | _ => none

/-- Reading `new Date(localStorage.getItem(k)).getTime()`: a number exactly on stored
ISO timestamps, `NaN` (`none`) otherwise. -/
def jsDateGetTimeVal : Option Val → Option Int
  | some (.timeV t) => some t
  | _ => none

/-- Whether the first list is an initial segment of the second (helper for the
string predicates below; structural recursion so that concrete instances
reduce). -/
def leadsWith : List Char → List Char → Bool
  | [], _ => true
  | _ :: _, [] => false
  | p :: ps, t :: ts => p == t && leadsWith ps ts

/-- Whether the second list occurs as a contiguous sublist of the first. -/
def containsSub : List Char → List Char → Bool
  | [], p => p.isEmpty
  | t :: ts, p => leadsWith p (t :: ts) || containsSub ts p

/-- JS `key.startsWith(pat)`. -/
def strStarts (s pat : String) : Bool :=
  leadsWith pat.data s.data

/-- JS `key.includes(pat)` (substring containment). -/
def strContains (s pat : String) : Bool :=
  containsSub s.data pat.data

/-- The condition under which `clearOtherLanguageQuotes(exceptLang)` removes a
key (`quotes.js` lines 58-65): a `quotes_` key that does not contain
`quotes_<exceptLang>` as a substring and is not the shared metadata key. -/
def quotesPurgeKey (exceptLang : String) (key : String) : Bool :=
  strStarts key "quotes_" && !(strContains key ("quotes_" ++ exceptLang))
    && key != "quotes_metadata_timestamp"

/-- Function `clearOtherLanguageQuotes` from `quotes.js`: iterate a snapshot of
`Object.keys(localStorage)` and remove every matching key. -/
def clearOtherLanguageQuotes (exceptLang : String) (s : Store) : Store :=
  (s.map Prod.fst).foldl
    (fun acc key => if quotesPurgeKey exceptLang key then removeItem acc key else acc) s

/-- Function `clearQuotesStorage` from `quotes.js`: remove every `quotes_` key. -/
def clearQuotesStorage (s : Store) : Store :=
  (s.map Prod.fst).foldl
    (fun acc key => if strStarts key "quotes_" then removeItem acc key else acc) s

/-- The check `lastKnownLanguage !== null && lastKnownLanguage !== currentLanguage`
(`quotes.js` lines 75 and 266). -/
def languageChanged : Option String → String → Bool
  | none, _ => false
  | some l, cur => l != cur

/-- Function `needsDataFetch` from `quotes.js` lines 70-104, as a pure function of the
supplied browser state (`onLine`, the two language globals, the store and the
clock). -/
def needsDataFetch (onLine : Bool) (lastKnown : Option String) (currentLanguage : String)
    (store : Store) (now : Int) (lang : String) : Bool :=
  if !onLine then false
  else if languageChanged lastKnown currentLanguage then true
  else if ["quotes_" ++ lang, "quotes_" ++ lang ++ "_timestamp",
           "quotes_" ++ lang ++ "_count"].any (fun key => !itemTruthy store key) then true
  else
    let storedCount : Int :=
      (jsParseIntVal (getItem store ("quotes_" ++ lang ++ "_count"))).getD 0
    match jsDateGetTimeVal (getItem store ("quotes_" ++ lang ++ "_timestamp")) with
    | none => false
    | some t =>
      let timeDiff := now - t
      if storedCount = 0 then decide (timeDiff > ONE_DAY)
      else
        let maxAge := if storedCount < (MIN_QUOTES_FOR_LANG : Int) then ONE_DAY else 7 * ONE_DAY
        decide (timeDiff > maxAge)

/-- The bulk provider's catalog metadata:
`{ lastUpdated, files: { "<lang>.json": { count } } }`. -/
structure Metadata where
  lastUpdated : String
  files : List (String × Nat)
deriving DecidableEq, Repr

/-- Lookup `metadata.files?.["<name>"]?.count`. -/
def filesLookup (md : Metadata) (name : String) : Option Nat :=
  match md.files.find? (fun kv => kv.1 == name) with
  | some kv => some kv.2
  | none => none

/-- Function `getTargetLanguage` from `quotes.js` lines 107-121. -/
def getTargetLanguage (currentLang : String) (md : Metadata) : String :=
  if currentLang = "en" then "en"
  else
    match filesLookup md (currentLang ++ ".json") with
    | some c => if c ≥ MIN_QUOTES_FOR_LANG then currentLang else "en"
    | none => "en"

/-- The declared count written by `storeQuotesData` (`quotes.js` line 232):
`metadata.files?.["<lang>.json"]?.count || quotes.length` — note that a zero
count is falsy in JS and therefore also falls back to `quotes.length`. -/
def declaredCount (md : Metadata) (lang : String) (quotes : List Quote) : Nat :=
  match filesLookup md (lang ++ ".json") with
  | some c => if c = 0 then quotes.length else c
  | none => quotes.length

/-- Function `storeQuotesData` from `quotes.js` lines 224-235. -/
def storeQuotesData (lang : String) (quotes : List Quote) (md : Option Metadata)
    (now : Int) (s : Store) : Store :=
  let s1 := setItem s ("quotes_" ++ lang) (.quotesV quotes)
  let s2 := setItem s1 ("quotes_" ++ lang ++ "_timestamp") (.timeV now)
  match md with
  | none => s2
  | some m =>
    let s3 := setItem s2 "quotes_metadata_timestamp" (.str m.lastUpdated)
    setItem s3 ("quotes_" ++ lang ++ "_count") (.str (toString (declaredCount m lang quotes)))

/-- Function `storeNoDataInfo` from `quotes.js` lines 238-248. -/
def storeNoDataInfo (lang : String) (md : Option Metadata) (now : Int) (s : Store) : Store :=
  let s1 := setItem s ("quotes_" ++ lang) (.quotesV [])
  let s2 := setItem s1 ("quotes_" ++ lang ++ "_timestamp") (.timeV now)
  let s3 := setItem s2 ("quotes_" ++ lang ++ "_count") (.str "0")
  match md with
  | none => s3
  | some m => setItem s3 "quotes_metadata_timestamp" (.str m.lastUpdated)

/-- Function `getStoredQuotes` from `quotes.js` lines 251-254:
`storedQuotes ? JSON.parse(storedQuotes) : null`.  A present non-empty value
that is not a serialized quote array makes `JSON.parse` throw. -/
def getStoredQuotes (s : Store) (lang : String) : Except String (Option (List Quote)) :=
  match getItem s ("quotes_" ++ lang) with
  | none => .ok none
  | some (.quotesV q) => .ok (some q)
  | some (.str raw) => if raw = "" then .ok none else .error "SyntaxError"
  | some (.timeV _) => .error "SyntaxError"

/-- A network request made during a call (for stating which fetches are
attempted and in which order). -/
inductive FetchCall where
  | metadata : FetchCall
  | quotes : String → FetchCall
  | vercel : FetchCall
  | programming : FetchCall
  | dummyjson : FetchCall
deriving DecidableEq, Repr

/-- The check `quote && quote.quote && quote.author` on a normalized quote
(`quotes.js` line 211): the object itself is truthy, so this asks that text
and author are both non-empty. -/
def quoteComplete (q : Quote) : Bool :=
  q.quote != "" && q.author != ""

/-- The loop of `fetchAlternativeQuote` (`quotes.js` lines 207-220): try each
API in order; return the first complete quote; collect the calls attempted.
If the list is exhausted, throw `"All alternative quote APIs failed"`. -/
def tryApis : List (FetchCall × Except String Quote) → Except String Quote × List FetchCall
  | [] => (.error "All alternative quote APIs failed", [])
  | (name, r) :: rest =>
    match r with
    | .ok q =>
      if quoteComplete q then (.ok q, [name])
      else
        match tryApis rest with
        | (res, t) => (res, name :: t)
    | .error _ =>
      match tryApis rest with
      | (res, t) => (res, name :: t)

/-- The environment of a single call: browser inputs and the outcome each
network endpoint would produce if fetched (providers already normalized). -/
structure Env where
  onLine : Bool
  currentLanguage : String
  now : Int
  metadataResp : Except String Metadata
  quotesResp : String → Except String (List Quote)
  vercelResp : Except String Quote
  programmingResp : Except String Quote
  dummyjsonResp : Except String Quote

/-- Function `fetchAlternativeQuote` from `quotes.js` lines 200-221: the fixed provider
order is vercel, programming, dummyjson. -/
def fetchAlternativeQuote (env : Env) : Except String Quote × List FetchCall :=
  tryApis [(.vercel, env.vercelResp), (.programming, env.programmingResp),
           (.dummyjson, env.dummyjsonResp)]

/-- Mutable module state: the store and `lastKnownLanguage`. -/
structure St where
  store : Store
  lastKnown : Option String
deriving Repr

/-- The alternative-API fallback inside the fetch path (`quotes.js` lines
296-308): on success store `[quote]` with count `"1"` under the *current*
language and return it; on failure rethrow (`throw altError`). -/
def altFetchStore (env : Env) (st : St) : Except String (List Quote) × St × List FetchCall :=
  match fetchAlternativeQuote env with
  | (.ok q, t) =>
    (.ok [q],
     ⟨setItem
        (setItem
          (setItem st.store ("quotes_" ++ env.currentLanguage) (.quotesV [q]))
          ("quotes_" ++ env.currentLanguage ++ "_timestamp") (.timeV env.now))
        ("quotes_" ++ env.currentLanguage ++ "_count") (.str "1"),
      st.lastKnown⟩, t)
  | (.error e, t) => (.error e, st, t)

/-- Record calls made before a sub-step in front of its trace. -/
def prependTrace (t0 : List FetchCall) (r : Except String (List Quote) × St × List FetchCall) :
    Except String (List Quote) × St × List FetchCall :=
  (r.1, r.2.1, t0 ++ r.2.2)

/-- The side record of `quotes.js` lines 279-285: if the *current* language
reports a zero (or absent) count and is not English, store the no-data
marker. -/
def noDataSide (env : Env) (md : Metadata) (st : St) : St :=
  if (filesLookup md (env.currentLanguage ++ ".json")).getD 0 = 0
      ∧ env.currentLanguage ≠ "en" then
    ⟨storeNoDataInfo env.currentLanguage (some md) env.now st.store, st.lastKnown⟩
  else st

/-- The `shouldFetch` branch (`quotes.js` lines 272-309).  The inner `try`
covers the metadata fetch, the no-data side record, the bulk quotes fetch and
the cache writes; any failure there falls to the alternative chain. -/
def fetchPath (env : Env) (st : St) : Except String (List Quote) × St × List FetchCall :=
  match env.metadataResp with
  | .error _ => prependTrace [FetchCall.metadata] (altFetchStore env st)
  | .ok md =>
    let targetLang := getTargetLanguage env.currentLanguage md
    let st1 : St := noDataSide env md st
    match env.quotesResp targetLang with
    | .error _ =>
      prependTrace [FetchCall.metadata, FetchCall.quotes targetLang] (altFetchStore env st1)
    | .ok quotes =>
      (.ok quotes,
       ⟨clearOtherLanguageQuotes
          (if env.currentLanguage = "" then targetLang else env.currentLanguage)
          (storeQuotesData targetLang quotes (some md) env.now st1.store),
        st1.lastKnown⟩,
       [FetchCall.metadata, FetchCall.quotes targetLang])

/-- The alternative-API recovery inside the English-fallback branch
(`quotes.js` lines 327-336): on success store `[quote]` under `en` and return
it; on failure only log — `englishQuotes` keeps its previous value and line
340 returns `englishQuotes || [FALLBACK_QUOTE]`. -/
def altEnglishPath (env : Env) (st : St) (eng : Option (List Quote)) (t0 : List FetchCall) :
    Except String (List Quote) × St × List FetchCall :=
  match fetchAlternativeQuote env with
  | (.ok q, t) =>
    (.ok [q],
     ⟨setItem
        (setItem (setItem st.store "quotes_en" (.quotesV [q]))
          "quotes_en_timestamp" (.timeV env.now))
        "quotes_en_count" (.str "1"),
      st.lastKnown⟩, t0 ++ t)
  | (.error _, t) =>
    (.ok (match eng with | none => [FALLBACK_QUOTE] | some l => l), st, t0 ++ t)

/-- The cached-path English fallback (`quotes.js` lines 316-341), entered when
the stored count for the current language is 0 and the language is not
English. -/
def englishFallbackPath (env : Env) (st : St) : Except String (List Quote) × St × List FetchCall :=
  match getStoredQuotes st.store "en" with
  | .error e => (.error e, st, [])
  | .ok eng =>
    if eng = none ∨ eng = some ([] : List Quote) then
      match env.metadataResp with
      | .ok md =>
        match env.quotesResp "en" with
        | .ok qs =>
          (.ok qs, ⟨storeQuotesData "en" qs (some md) env.now st.store, st.lastKnown⟩,
           [FetchCall.metadata, FetchCall.quotes "en"])
        | .error _ =>
          altEnglishPath env st eng [FetchCall.metadata, FetchCall.quotes "en"]
      | .error _ => altEnglishPath env st eng [FetchCall.metadata]
    else
      (.ok (eng.getD [FALLBACK_QUOTE]), st, [])

/-- The alternative-API recovery for an empty/absent cached list
(`quotes.js` lines 350-360): on success store `[quote]` with count `"1"`
under the current language; on failure return `[FALLBACK_QUOTE]`. -/
def altCurrentPath (env : Env) (st : St) : Except String (List Quote) × St × List FetchCall :=
  match fetchAlternativeQuote env with
  | (.ok q, t) =>
    (.ok [q],
     ⟨setItem
        (setItem
          (setItem st.store ("quotes_" ++ env.currentLanguage) (.quotesV [q]))
          ("quotes_" ++ env.currentLanguage ++ "_timestamp") (.timeV env.now))
        ("quotes_" ++ env.currentLanguage ++ "_count") (.str "1"),
      st.lastKnown⟩, t)
  | (.error _, t) => (.ok [FALLBACK_QUOTE], st, t)

/-- The stored-data branch (`quotes.js` lines 311-361). -/
def cachePath (env : Env) (st : St) : Except String (List Quote) × St × List FetchCall :=
  let storedCount : Int :=
    (jsParseIntVal (getItem st.store ("quotes_" ++ env.currentLanguage ++ "_count"))).getD 0
  if storedCount = 0 ∧ env.currentLanguage ≠ "en" then
    englishFallbackPath env st
  else
    match getStoredQuotes st.store env.currentLanguage with
    | .error e => (.error e, st, [])
    | .ok (some qs) => if qs ≠ [] then (.ok qs, st, []) else altCurrentPath env st
    | .ok none => altCurrentPath env st

/-- The body of the outer `try` of `getQuotesForLanguage` (`quotes.js` lines
265-361): record the new `lastKnownLanguage` (line 267) before deciding
whether to fetch. -/
def getQuotesInner (env : Env) (st : St) (forceRefresh : Bool) :
    Except String (List Quote) × St × List FetchCall :=
  let st1 : St := ⟨st.store, some env.currentLanguage⟩
  let shouldFetch := forceRefresh ||
    needsDataFetch env.onLine st1.lastKnown env.currentLanguage st1.store env.now
      env.currentLanguage
  if shouldFetch then fetchPath env st1 else cachePath env st1

/-- Function `getQuotesForLanguage` from `quotes.js` lines 263-381, outer `catch`
included (lines 362-380): on an uncaught inner error, try
`getStoredQuotes(currentLanguage) || getStoredQuotes("en")`; if that is null
or empty try the alternative chain once more, else the hardcoded fallback.
`getStoredQuotes` itself may throw (corrupted cache), which escapes. -/
def getQuotesForLanguage (env : Env) (st : St) (forceRefresh : Bool) :
    Except String (List Quote) × St × List FetchCall :=
  match getQuotesInner env st forceRefresh with
  | (.ok qs, st2, t) => (.ok qs, st2, t)
  | (.error _, st2, t) =>
    match getStoredQuotes st2.store env.currentLanguage with
    | .error e2 => (.error e2, st2, t)
    | .ok (some l) =>
      if l ≠ [] then (.ok l, st2, t)
      else
        match fetchAlternativeQuote env with
        | (.ok q, t2) => (.ok [q], st2, t ++ t2)
        | (.error _, t2) => (.ok [FALLBACK_QUOTE], st2, t ++ t2)
    | .ok none =>
      match getStoredQuotes st2.store "en" with
      | .error e2 => (.error e2, st2, t)
      | .ok (some l) =>
        if l ≠ [] then (.ok l, st2, t)
        else
          match fetchAlternativeQuote env with
          | (.ok q, t2) => (.ok [q], st2, t ++ t2)
          | (.error _, t2) => (.ok [FALLBACK_QUOTE], st2, t ++ t2)
      | .ok none =>
        match fetchAlternativeQuote env with
        | (.ok q, t2) => (.ok [q], st2, t ++ t2)
        | (.error _, t2) => (.ok [FALLBACK_QUOTE], st2, t ++ t2)

/-- The value computed by the outer catch handler (`quotes.js` lines
366-379) from the read of `quotes_<currentLanguage>`, the read of
`quotes_en` (consulted only when the first is `null`), and the outcome of
the final alternative-chain attempt: `quotes =
getStoredQuotes(currentLanguage) || getStoredQuotes("en")`, and if that is
null or empty, the chain's quote, else the hardcoded fallback. -/
def handlerResult (o1 o2 : Option (List Quote)) (alt : Except String Quote) : List Quote :=
  match o1 with
  | some l =>
    if l ≠ [] then l
    else match alt with | .ok q => [q] | .error _ => [FALLBACK_QUOTE]
  | none =>
    match o2 with
    | some l =>
      if l ≠ [] then l
      else match alt with | .ok q => [q] | .error _ => [FALLBACK_QUOTE]
    | none => match alt with | .ok q => [q] | .error _ => [FALLBACK_QUOTE]

deriving instance DecidableEq for Except

/-- Concrete call context: online, language `"de"` after a switch from
`"fr"`, bulk provider down, first alternative provider up. -/
def envC2 : Env :=
  { onLine := true
    currentLanguage := "de"
    now := 0
    metadataResp := .error "network"
    quotesResp := fun _ => .error "network"
    vercelResp := .ok ⟨"X", "Y"⟩
    programmingResp := .error "network"
    dummyjsonResp := .error "network" }

/-- Concrete state: complete cache entries for `"fr"` and `"en"`,
`lastKnownLanguage = "fr"`. -/
def stC2 : St :=
  ⟨[("quotes_fr", .quotesV [⟨"q", "a"⟩]), ("quotes_fr_timestamp", .timeV 0),
    ("quotes_fr_count", .str "120"), ("quotes_en", .quotesV [⟨"e", "a"⟩]),
    ("quotes_en_timestamp", .timeV 0), ("quotes_en_count", .str "120")], some "fr"⟩

/-- Concrete call context: online, language `"de"`, bulk provider up with a
small count for `"de"`. -/
def envC2w : Env :=
  { envC2 with
    metadataResp := .ok ⟨"2024", [("de.json", 120)]⟩
    quotesResp := fun _ => .ok [⟨"Q", "A"⟩] }

/-- Concrete call context: online, language `"fr"`, every provider down. -/
def envC1 : Env :=
  { onLine := true
    currentLanguage := "fr"
    now := 0
    metadataResp := .error "network"
    quotesResp := fun _ => .error "network"
    vercelResp := .error "network"
    programmingResp := .error "network"
    dummyjsonResp := .error "network" }

/-- Concrete call context: offline, language `"es"`, every fetch rejects. -/
def envC4 : Env :=
  { envC1 with
    onLine := false
    currentLanguage := "es" }

/-- Concrete call context for the provider chain: first provider down,
second provider up. -/
def envC5 : Env :=
  { envC1 with
    programmingResp := .ok ⟨"X", "Y"⟩ }

/-- Concrete call context: offline, language `"it"`, every fetch rejects. -/
def envC9 : Env :=
  { envC1 with
    onLine := false
    currentLanguage := "it" }

/-- Concrete store: complete, fresh cache entry for `"fr"` with count 50. -/
def storeC3 : Store :=
  [("quotes_fr", .quotesV [⟨"q", "a"⟩]), ("quotes_fr_timestamp", .timeV 0),
   ("quotes_fr_count", .str "50")]

/-- Concrete store: complete cache entry for `"fr"` whose count does not
parse as an integer. -/
def storeC10a : Store :=
  [("quotes_fr", .quotesV [⟨"q", "a"⟩]), ("quotes_fr_timestamp", .timeV 0),
   ("quotes_fr_count", .str "abc")]

/-- Concrete store: cache entry for `"fr"` whose quotes value is the empty
string. -/
def storeC10b : Store :=
  [("quotes_fr", .str ""), ("quotes_fr_timestamp", .timeV 0),
   ("quotes_fr_count", .str "50")]

/-! ### Store algebra -/

theorem getItem_setItem_self (s : Store) (k : String) (v : Val) :
    getItem (setItem s k v) k = some v := by
  induction s with
  | nil => simp [setItem, getItem]
  | cons kv rest ih =>
    by_cases h : kv.1 = k
    · simp [setItem, getItem, h]
    · simp [setItem, getItem, h, ih]

theorem getItem_setItem_ne (s : Store) (k k2 : String) (v : Val) (h : k2 ≠ k) :
    getItem (setItem s k v) k2 = getItem s k2 := by
  induction s with
  | nil => simp [setItem, getItem, Ne.symm h]
  | cons kv rest ih =>
    by_cases hk : kv.1 = k
    · simp [setItem, getItem, hk, Ne.symm h]
    · simp [setItem, getItem, hk, ih]

theorem getItem_removeItem_self (s : Store) (k : String) :
    getItem (removeItem s k) k = none := by
  induction s with
  | nil => simp [removeItem, getItem]
  | cons kv rest ih =>
    by_cases h : kv.1 = k
    · simp [removeItem, h, ih]
    · simp [removeItem, getItem, h, ih]

theorem getItem_removeItem_ne (s : Store) (k k2 : String) (h : k2 ≠ k) :
    getItem (removeItem s k) k2 = getItem s k2 := by
  induction s with
  | nil => simp [removeItem]
  | cons kv rest ih =>
    by_cases hk : kv.1 = k
    · simp [removeItem, getItem, hk, ih, Ne.symm h]
    · simp only [removeItem, hk, if_neg hk, getItem]
      by_cases h2 : kv.1 = k2 <;> simp [h2, ih]

theorem getItem_eq_none_of_not_mem (s : Store) (k : String) (h : k ∉ s.map Prod.fst) :
    getItem s k = none := by
  induction s with
  | nil => rfl
  | cons kv rest ih =>
    simp only [List.map_cons, List.mem_cons] at h
    push_neg at h
    simp [getItem, Ne.symm h.1, ih h.2]

theorem getItem_purgeFold (e : String) (ks : List String) (acc : Store) (k : String) :
    getItem (ks.foldl
        (fun a key => if quotesPurgeKey e key then removeItem a key else a) acc) k =
      if quotesPurgeKey e k = true ∧ k ∈ ks then none else getItem acc k := by
  induction ks generalizing acc with
  | nil => simp
  | cons key ks ih =>
    rw [List.foldl_cons, ih]
    by_cases hp : quotesPurgeKey e k = true
    · by_cases hm : k ∈ ks
      · simp [hp, hm]
      · by_cases hke : k = key
        · subst hke
          simp [hp, hm, getItem_removeItem_self]
        · simp only [hp, hm, true_and, List.mem_cons, hke, false_or, if_neg, and_false,
            if_false]
          by_cases hpk : quotesPurgeKey e key
          · simp [hpk, getItem_removeItem_ne acc key k hke]
          · simp [hpk]
    · simp only [hp, false_and, if_false]
      by_cases hke : k = key
      · subst hke
        simp [hp]
      · by_cases hpk : quotesPurgeKey e key
        · simp [hpk, getItem_removeItem_ne acc key k hke]
        · simp [hpk]

/-- Pointwise behaviour of `clearOtherLanguageQuotes`: a key survives exactly
when it is not a purge target; surviving keys keep their values. -/
theorem getItem_clearOtherLanguageQuotes (e : String) (s : Store) (k : String) :
    getItem (clearOtherLanguageQuotes e s) k =
      if quotesPurgeKey e k = true then none else getItem s k := by
  unfold clearOtherLanguageQuotes
  rw [getItem_purgeFold]
  by_cases hp : quotesPurgeKey e k = true
  · by_cases hm : k ∈ s.map Prod.fst
    · simp [hp, hm]
    · simp [hp, hm, getItem_eq_none_of_not_mem s k hm]
  · simp [hp]

/-! ### String key facts -/

theorem string_ne_of_length_ne {a b : String} (h : a.length ≠ b.length) : a ≠ b :=
  fun he => h (by rw [he])

theorem string_append_left_cancel {p a b : String} (h : p ++ a = p ++ b) : a = b := by
  have hd : p.data ++ a.data = p.data ++ b.data := by
    simpa [String.data_append] using congrArg String.data h
  have hab := List.append_cancel_left hd
  cases a
  cases b
  exact congrArg String.mk hab

theorem quotesKey_inj {a b : String} (h : ("quotes_" : String) ++ a = "quotes_" ++ b) :
    a = b :=
  string_append_left_cancel h

theorem quotesKey_ne_own_ts (l : String) :
    ("quotes_" : String) ++ l ≠ ("quotes_" ++ l) ++ "_timestamp" := by
  apply string_ne_of_length_ne
  have h2 : ("_timestamp" : String).length = 10 := rfl
  simp only [String.length_append, h2]
  omega

theorem quotesKey_ne_own_cnt (l : String) :
    ("quotes_" : String) ++ l ≠ ("quotes_" ++ l) ++ "_count" := by
  apply string_ne_of_length_ne
  have h2 : ("_count" : String).length = 6 := rfl
  simp only [String.length_append, h2]
  omega

theorem quotesKey_ne_meta (l : String) (h : l ≠ "metadata_timestamp") :
    ("quotes_" : String) ++ l ≠ "quotes_metadata_timestamp" := by
  have hm : ("quotes_metadata_timestamp" : String) = "quotes_" ++ "metadata_timestamp" := rfl
  rw [hm]
  exact fun he => h (quotesKey_inj he)

theorem enKey_ne_quotesKey (l : String) (h : l ≠ "en") :
    ("quotes_en" : String) ≠ "quotes_" ++ l := by
  have he : ("quotes_en" : String) = "quotes_" ++ "en" := rfl
  rw [he]
  exact fun hq => h (quotesKey_inj hq).symm

theorem enKey_ne_ts (l : String) :
    ("quotes_en" : String) ≠ ("quotes_" ++ l) ++ "_timestamp" := by
  apply string_ne_of_length_ne
  have h1 : ("quotes_en" : String).length = 9 := rfl
  have h2 : ("_timestamp" : String).length = 10 := rfl
  have h3 : ("quotes_" : String).length = 7 := rfl
  simp only [String.length_append, h1, h2, h3]
  omega

theorem enKey_ne_cnt (l : String) :
    ("quotes_en" : String) ≠ ("quotes_" ++ l) ++ "_count" := by
  apply string_ne_of_length_ne
  have h1 : ("quotes_en" : String).length = 9 := rfl
  have h2 : ("_count" : String).length = 6 := rfl
  have h3 : ("quotes_" : String).length = 7 := rfl
  simp only [String.length_append, h1, h2, h3]
  omega

theorem enKey_ne_meta : ("quotes_en" : String) ≠ "quotes_metadata_timestamp" := by
  decide

/-! ### Reads over the no-data side record -/

theorem getStoredQuotes_storeNoDataInfo_self (l : String) (md : Metadata) (now : Int)
    (s : Store) (h : l ≠ "metadata_timestamp") :
    getStoredQuotes (storeNoDataInfo l (some md) now s) l = .ok (some []) := by
  unfold storeNoDataInfo getStoredQuotes
  rw [getItem_setItem_ne _ _ _ _ (quotesKey_ne_meta l h),
      getItem_setItem_ne _ _ _ _ (quotesKey_ne_own_cnt l),
      getItem_setItem_ne _ _ _ _ (quotesKey_ne_own_ts l),
      getItem_setItem_self]

theorem getStoredQuotes_storeNoDataInfo_en (l : String) (md : Metadata) (now : Int)
    (s : Store) (h : l ≠ "en") :
    getStoredQuotes (storeNoDataInfo l (some md) now s) "en" = getStoredQuotes s "en" := by
  unfold storeNoDataInfo getStoredQuotes
  have he : ("quotes_" : String) ++ "en" = "quotes_en" := rfl
  rw [he, getItem_setItem_ne _ _ _ _ enKey_ne_meta,
      getItem_setItem_ne _ _ _ _ (enKey_ne_cnt l),
      getItem_setItem_ne _ _ _ _ (enKey_ne_ts l),
      getItem_setItem_ne _ _ _ _ (enKey_ne_quotesKey l h)]

/-! ### Path-level facts -/

theorem altFetchStore_lastKnown (env : Env) (st : St) :
    (altFetchStore env st).2.1.lastKnown = st.lastKnown := by
  unfold altFetchStore
  split <;> rfl

theorem noDataSide_lastKnown (env : Env) (md : Metadata) (st : St) :
    (noDataSide env md st).lastKnown = st.lastKnown := by
  unfold noDataSide
  split <;> rfl

theorem fetchPath_lastKnown (env : Env) (st : St) :
    (fetchPath env st).2.1.lastKnown = st.lastKnown := by
  unfold fetchPath
  split
  · exact altFetchStore_lastKnown env st
  · dsimp only
    split
    · rw [prependTrace, altFetchStore_lastKnown, noDataSide_lastKnown]
    · exact noDataSide_lastKnown ..

theorem altEnglishPath_lastKnown (env : Env) (st : St) (eng : Option (List Quote))
    (t0 : List FetchCall) :
    (altEnglishPath env st eng t0).2.1.lastKnown = st.lastKnown := by
  unfold altEnglishPath
  split <;> rfl

theorem englishFallbackPath_lastKnown (env : Env) (st : St) :
    (englishFallbackPath env st).2.1.lastKnown = st.lastKnown := by
  unfold englishFallbackPath
  split
  · rfl
  · split
    · split
      · split
        · rfl
        · exact altEnglishPath_lastKnown ..
      · exact altEnglishPath_lastKnown ..
    · rfl

theorem altCurrentPath_lastKnown (env : Env) (st : St) :
    (altCurrentPath env st).2.1.lastKnown = st.lastKnown := by
  unfold altCurrentPath
  split <;> rfl

theorem cachePath_lastKnown (env : Env) (st : St) :
    (cachePath env st).2.1.lastKnown = st.lastKnown := by
  unfold cachePath
  dsimp only
  split
  · exact englishFallbackPath_lastKnown ..
  · split
    · rfl
    · split
      · rfl
      · exact altCurrentPath_lastKnown ..
    · exact altCurrentPath_lastKnown ..

theorem getQuotesInner_lastKnown (env : Env) (st : St) (f : Bool) :
    (getQuotesInner env st f).2.1.lastKnown = some env.currentLanguage := by
  unfold getQuotesInner
  dsimp only
  split
  · exact fetchPath_lastKnown ..
  · exact cachePath_lastKnown ..

theorem altFetchStore_error (env : Env) (st : St) {e : String} {st2 : St}
    {t : List FetchCall} (h : altFetchStore env st = (.error e, st2, t)) : st2 = st := by
  unfold altFetchStore at h
  split at h
  · injection h with h1 h2
    injection h1
  · injection h with h1 h2
    injection h2 with h2a h2b
    exact h2a.symm

theorem altEnglishPath_ne_error (env : Env) (st : St) (eng : Option (List Quote))
    (t0 : List FetchCall) (e : String) (st2 : St) (t : List FetchCall) :
    altEnglishPath env st eng t0 ≠ (.error e, st2, t) := by
  unfold altEnglishPath
  split <;> intro h <;> injection h with h1 h2 <;> injection h1

theorem altCurrentPath_ne_error (env : Env) (st : St) (e : String) (st2 : St)
    (t : List FetchCall) :
    altCurrentPath env st ≠ (.error e, st2, t) := by
  unfold altCurrentPath
  split <;> intro h <;> injection h with h1 h2 <;> injection h1

theorem fetchPath_error (env : Env) (st : St) {e : String} {st2 : St} {t : List FetchCall}
    (h : fetchPath env st = (.error e, st2, t)) :
    st2.lastKnown = st.lastKnown ∧
    (st2.store = st.store ∨
      ∃ md, env.metadataResp = .ok md ∧ env.currentLanguage ≠ "en" ∧
        st2.store = storeNoDataInfo env.currentLanguage (some md) env.now st.store) := by
  have hlk := fetchPath_lastKnown env st
  rw [h] at hlk
  refine ⟨hlk, ?_⟩
  unfold fetchPath at h
  split at h
  · rcases ha : altFetchStore env st with ⟨r, stx, tx⟩
    unfold prependTrace at h
    rw [ha] at h
    dsimp only at h
    injection h with h1 h2
    injection h2 with h2a h2b
    have hst : stx = st := altFetchStore_error env st (by rw [ha, h1])
    left
    rw [← h2a, hst]
  · next md hmd =>
    dsimp only at h
    split at h
    · rcases ha : altFetchStore env (noDataSide env md st) with ⟨r, stx, tx⟩
      unfold prependTrace at h
      rw [ha] at h
      dsimp only at h
      injection h with h1 h2
      injection h2 with h2a h2b
      have hst : stx = noDataSide env md st :=
        altFetchStore_error env (noDataSide env md st) (by rw [ha, h1])
      rw [← h2a, hst]
      unfold noDataSide
      split
      · next hc =>
        right
        exact ⟨md, hmd, hc.2, rfl⟩
      · left
        rfl
    · injection h with h1 h2
      injection h1

theorem englishFallbackPath_error (env : Env) (st : St) {e : String} {st2 : St}
    {t : List FetchCall} (h : englishFallbackPath env st = (.error e, st2, t)) :
    st2 = st := by
  unfold englishFallbackPath at h
  split at h
  · injection h with h1 h2
    injection h2 with h2a h2b
    exact h2a.symm
  · split at h
    · split at h
      · split at h
        · injection h with h1 h2
          injection h1
        · exact absurd h (altEnglishPath_ne_error _ _ _ _ _ _ _)
      · exact absurd h (altEnglishPath_ne_error _ _ _ _ _ _ _)
    · injection h with h1 h2
      injection h1

theorem cachePath_error (env : Env) (st : St) {e : String} {st2 : St}
    {t : List FetchCall} (h : cachePath env st = (.error e, st2, t)) : st2 = st := by
  unfold cachePath at h
  dsimp only at h
  split at h
  · exact englishFallbackPath_error env st h
  · split at h
    · injection h with h1 h2
      injection h2 with h2a h2b
      exact h2a.symm
    · split at h
      · injection h with h1 h2
        injection h1
      · exact absurd h (altCurrentPath_ne_error _ _ _ _ _)
    · exact absurd h (altCurrentPath_ne_error _ _ _ _ _)

theorem getQuotesInner_error (env : Env) (st : St) (f : Bool) {e : String} {st2 : St}
    {t : List FetchCall} (h : getQuotesInner env st f = (.error e, st2, t)) :
    st2.lastKnown = some env.currentLanguage ∧
    (st2.store = st.store ∨
      ∃ md, env.metadataResp = .ok md ∧ env.currentLanguage ≠ "en" ∧
        st2.store = storeNoDataInfo env.currentLanguage (some md) env.now st.store) := by
  have hlk := getQuotesInner_lastKnown env st f
  rw [h] at hlk
  refine ⟨hlk, ?_⟩
  unfold getQuotesInner at h
  dsimp only at h
  split at h
  · exact (fetchPath_error env _ h).2
  · rw [cachePath_error env _ h]
    left
    rfl

theorem getQuotesForLanguage_lastKnown_eq (env : Env) (st : St) (f : Bool) :
    (getQuotesForLanguage env st f).2.1.lastKnown = some env.currentLanguage := by
  unfold getQuotesForLanguage
  have h := getQuotesInner_lastKnown env st f
  rcases hin : getQuotesInner env st f with ⟨r, st2, t⟩
  rw [hin] at h
  rcases r with e | qs
  · dsimp only
    dsimp only at h
    split
    · exact h
    · split
      · exact h
      · split <;> exact h
    · split
      · exact h
      · split
        · exact h
        · split <;> exact h
      · split <;> exact h
  · exact h

/-! ### Claims -/

/-- C7: for every metadata value, `getTargetLanguage` maps `"en"` to `"en"`
unconditionally; a non-English language maps to itself exactly when the
metadata reports a count of at least 100 for its `.json` file (absent
metadata behaving like a too-small count), and to `"en"` otherwise. -/
theorem C7_getTargetLanguage_resolution (md : Metadata) (L : String) :
    getTargetLanguage "en" md = "en" ∧
    (L ≠ "en" →
      ((getTargetLanguage L md = L ↔
          ∃ c, filesLookup md (L ++ ".json") = some c ∧ MIN_QUOTES_FOR_LANG ≤ c) ∧
        (getTargetLanguage L md = L ∨ getTargetLanguage L md = "en"))) := by
  constructor
  · simp [getTargetLanguage]
  · intro hL
    unfold getTargetLanguage
    rcases hf : filesLookup md (L ++ ".json") with _ | c
    · simp [hL, hf, Ne.symm hL]
    · by_cases hc : MIN_QUOTES_FOR_LANG ≤ c
      · simp [hL, hf, hc]
      · simp [hL, hf, hc, Ne.symm hL]

/-- Witness for C7 at concrete inputs: a count of 120 keeps `"fr"`, a count
of 3 redirects `"de"` to `"en"`. -/
theorem C7_getTargetLanguage_resolution_witness :
    getTargetLanguage "fr" ⟨"2024", [("fr.json", 120)]⟩ = "fr" ∧
    getTargetLanguage "de" ⟨"2024", [("de.json", 3)]⟩ = "en" := by
  refine ⟨?_, by decide⟩
  exact ((C7_getTargetLanguage_resolution ⟨"2024", [("fr.json", 120)]⟩ "fr").2
    (by decide)).1.mpr ⟨120, by decide, by decide⟩

/-- C8 (amended): `clearOtherLanguageQuotes(keepLanguage)` deletes exactly
the keys that start with `quotes_`, are not the shared metadata timestamp
key, and do not contain `quotes_<keepLanguage>` as a substring; every other
key keeps its value.  In particular a key of any language whose
`quotes_`-prefixed form contains `quotes_<keepLanguage>` — e.g. a language
code extending `keepLanguage` — survives the purge. -/
theorem C8_clearOtherLanguageQuotes_frame (keepLanguage : String) (s : Store) (key : String) :
    getItem (clearOtherLanguageQuotes keepLanguage s) key =
      if strStarts key "quotes_" = true
          ∧ strContains key ("quotes_" ++ keepLanguage) = false
          ∧ key ≠ "quotes_metadata_timestamp" then none
      else getItem s key := by
  rw [getItem_clearOtherLanguageQuotes]
  by_cases h1 : strStarts key "quotes_" = true <;>
    by_cases h2 : strContains key ("quotes_" ++ keepLanguage) = false <;>
      by_cases h3 : key = "quotes_metadata_timestamp" <;>
        simp [quotesPurgeKey, h1, h2, h3]

/-- C8 counterexample: with `keepLanguage = "en"`, the language-scoped key
`quotes_enx` of the distinct language `"enx"` is not deleted, because
`"quotes_enx".includes("quotes_en")` holds. -/
theorem C8_cex :
    ("enx" : String) ≠ "en" ∧
    getItem (clearOtherLanguageQuotes "en" [("quotes_enx", Val.str "x")]) "quotes_enx" =
      some (Val.str "x") := by
  constructor
  · decide
  · decide

/-- C5: `fetchAlternativeQuote` tries vercel, programming, dummyjson in that
fixed order; the first provider that succeeds with a complete quote (both
fields non-empty) supplies the result and terminates the chain, so later
providers are not invoked (witnessed by the call trace); if no provider
yields a complete quote the all-providers-failed error is raised after all
three were tried. -/
theorem C5_fetchAlternativeQuote_chain (env : Env) :
    (∀ q, env.vercelResp = .ok q → quoteComplete q = true →
      fetchAlternativeQuote env = (.ok q, [FetchCall.vercel])) ∧
    ((∀ q, env.vercelResp = .ok q → quoteComplete q = false) →
      ∀ q, env.programmingResp = .ok q → quoteComplete q = true →
        fetchAlternativeQuote env = (.ok q, [FetchCall.vercel, FetchCall.programming])) ∧
    ((∀ q, env.vercelResp = .ok q → quoteComplete q = false) →
      (∀ q, env.programmingResp = .ok q → quoteComplete q = false) →
      ∀ q, env.dummyjsonResp = .ok q → quoteComplete q = true →
        fetchAlternativeQuote env =
          (.ok q, [FetchCall.vercel, FetchCall.programming, FetchCall.dummyjson])) ∧
    ((∀ q, env.vercelResp = .ok q → quoteComplete q = false) →
      (∀ q, env.programmingResp = .ok q → quoteComplete q = false) →
      (∀ q, env.dummyjsonResp = .ok q → quoteComplete q = false) →
      fetchAlternativeQuote env =
        (.error "All alternative quote APIs failed",
         [FetchCall.vercel, FetchCall.programming, FetchCall.dummyjson])) := by
  have hd : ∀ (r : Except String Quote) (rest : List (FetchCall × Except String Quote))
      (name : FetchCall), (∀ q, r = .ok q → quoteComplete q = false) →
      tryApis ((name, r) :: rest) =
        ((tryApis rest).1, name :: (tryApis rest).2) := by
    intro r rest name hng
    rcases hres : tryApis rest with ⟨res, t⟩
    rcases r with e | q
    · simp [tryApis, hres]
    · simp [tryApis, hres, hng q rfl]
  refine ⟨?_, ?_, ?_, ?_⟩
  · intro q hq hcq
    simp [fetchAlternativeQuote, tryApis, hq, hcq]
  · intro hv q hq hcq
    unfold fetchAlternativeQuote
    rw [hd _ _ _ hv]
    simp [tryApis, hq, hcq]
  · intro hv hp q hq hcq
    unfold fetchAlternativeQuote
    rw [hd _ _ _ hv, hd _ _ _ hp]
    simp [tryApis, hq, hcq]
  · intro hv hp hdj
    unfold fetchAlternativeQuote
    rw [hd _ _ _ hv, hd _ _ _ hp, hd _ _ _ hdj]
    simp [tryApis]

/-- Witness for C5 at a concrete input: vercel down, programming returns a
complete quote; the result is programming's quote and dummyjson does not
appear in the trace. -/
theorem C5_fetchAlternativeQuote_chain_witness :
    fetchAlternativeQuote envC5 = (.ok ⟨"X", "Y"⟩, [FetchCall.vercel, FetchCall.programming]) :=
  (C5_fetchAlternativeQuote_chain envC5).2.1
    (fun q h => by simp [envC5, envC1] at h) ⟨"X", "Y"⟩ rfl (by decide)

/-- C9: on every call — regardless of provider outcomes, including total
failure and hardcoded-fallback returns — `getQuotesForLanguage` leaves
`lastKnownLanguage` equal to the current language, so an immediately
repeated call for the same language is no longer classified as a language
change. -/
theorem C9_lastKnown_updated (env env2 : Env) (st : St) (f : Bool)
    (hsame : env2.currentLanguage = env.currentLanguage) :
    (getQuotesForLanguage env st f).2.1.lastKnown = some env.currentLanguage ∧
    languageChanged (getQuotesForLanguage env st f).2.1.lastKnown env2.currentLanguage
      = false := by
  refine ⟨getQuotesForLanguage_lastKnown_eq env st f, ?_⟩
  rw [getQuotesForLanguage_lastKnown_eq, hsame]
  simp [languageChanged]

/-- Witness for C9: a call that ends in the hardcoded fallback still records
the language, and a repeat is not a language change. -/
theorem C9_lastKnown_updated_witness :
    (getQuotesForLanguage envC9 ⟨[], none⟩ false).2.1.lastKnown = some "it" ∧
    languageChanged (getQuotesForLanguage envC9 ⟨[], none⟩ false).2.1.lastKnown "it"
      = false :=
  C9_lastKnown_updated envC9 envC9 ⟨[], none⟩ false rfl

/-- C6 (amended): after `storeQuotesData(L, quotes, metadata)`, reading the
cache returns exactly the stored quote list, and the stored count is the
metadata count for `L.json` when that count is present *and non-zero*;
a zero metadata count is falsy in JS and falls back to `quotes.length`
exactly like an absent one.  The language name `"metadata_timestamp"` is
excluded: its quotes key collides with the shared metadata timestamp key. -/
theorem C6_storeQuotesData_roundtrip (lang : String) (quotes : List Quote) (md : Metadata)
    (now : Int) (s : Store) (h : lang ≠ "metadata_timestamp") :
    getStoredQuotes (storeQuotesData lang quotes (some md) now s) lang = .ok (some quotes) ∧
    getItem (storeQuotesData lang quotes (some md) now s) ("quotes_" ++ lang ++ "_count") =
      some (.str (toString (declaredCount md lang quotes))) ∧
    (∀ c, filesLookup md (lang ++ ".json") = some c → c ≠ 0 →
      declaredCount md lang quotes = c) ∧
    (filesLookup md (lang ++ ".json") = none →
      declaredCount md lang quotes = quotes.length) ∧
    (filesLookup md (lang ++ ".json") = some 0 →
      declaredCount md lang quotes = quotes.length) := by
  refine ⟨?_, ?_, ?_, ?_, ?_⟩
  · unfold storeQuotesData getStoredQuotes
    rw [getItem_setItem_ne _ _ _ _ (quotesKey_ne_own_cnt lang),
        getItem_setItem_ne _ _ _ _ (quotesKey_ne_meta lang h),
        getItem_setItem_ne _ _ _ _ (quotesKey_ne_own_ts lang),
        getItem_setItem_self]
  · unfold storeQuotesData
    rw [getItem_setItem_self]
  · intro c hc hc0
    unfold declaredCount
    rw [hc]
    simp [hc0]
  · intro hc
    unfold declaredCount
    rw [hc]
  · intro hc
    unfold declaredCount
    rw [hc]
    simp

/-- Witness for C6 at a concrete input: a stored entry for `"de"` with a
non-zero metadata count round-trips. -/
theorem C6_storeQuotesData_roundtrip_witness :
    getStoredQuotes (storeQuotesData "de" [⟨"A", "B"⟩] (some ⟨"2024", [("de.json", 120)]⟩) 0 [])
      "de" = .ok (some [⟨"A", "B"⟩]) ∧
    getItem (storeQuotesData "de" [⟨"A", "B"⟩] (some ⟨"2024", [("de.json", 120)]⟩) 0 [])
      "quotes_de_count" = some (.str "120") := by
  have h := C6_storeQuotesData_roundtrip "de" [⟨"A", "B"⟩] ⟨"2024", [("de.json", 120)]⟩ 0 []
    (by decide)
  refine ⟨h.1, ?_⟩
  have h2 := h.2.1
  have h3 := h.2.2.1 120 (by decide) (by decide)
  rw [h3] at h2
  exact h2

/-- C6 counterexample: the claim as stated fails when the metadata count is
present but zero — `put("de", [q], metadata)` with a declared count of 0 for
`de.json` stores count `"1"` (the quote list length), not the metadata's
count `"0"`. -/
theorem C6_cex :
    filesLookup ⟨"2024", [("de.json", 0)]⟩ "de.json" = some 0 ∧
    getItem (storeQuotesData "de" [⟨"A", "B"⟩] (some ⟨"2024", [("de.json", 0)]⟩) 0 [])
      "quotes_de_count" = some (.str "1") ∧
    (Val.str "1" : Val) ≠ Val.str "0" := by
  refine ⟨by decide, by decide, by decide⟩

/-- C3: with the caller online, the three cache keys present with well-formed
values, and no language change observed, `needsDataFetch` reports staleness
exactly when the cache age strictly exceeds the threshold: one day for a
stored count of 0, one day for a count strictly between 0 and 100, and seven
days for a count of at least 100 (so an age equal to the threshold is fresh
and threshold plus one millisecond is stale). -/
theorem C3_needsDataFetch_staleness (lastKnown : Option String) (cur lang : String)
    (store : Store) (now tv c : Int) (s : String)
    (hchange : languageChanged lastKnown cur = false)
    (hq : itemTruthy store ("quotes_" ++ lang) = true)
    (hts : getItem store ("quotes_" ++ lang ++ "_timestamp") = some (.timeV tv))
    (hc : getItem store ("quotes_" ++ lang ++ "_count") = some (.str s))
    (hparse : jsParseInt s = some c) :
    (c = 0 →
      needsDataFetch true lastKnown cur store now lang = decide (now - tv > ONE_DAY)) ∧
    (0 < c → c < 100 →
      needsDataFetch true lastKnown cur store now lang = decide (now - tv > ONE_DAY)) ∧
    (100 ≤ c →
      needsDataFetch true lastKnown cur store now lang = decide (now - tv > 7 * ONE_DAY)) := by
  have hs : s ≠ "" := by
    intro h
    rw [h] at hparse
    exact Option.noConfusion hparse
  have htr1 : itemTruthy store ("quotes_" ++ lang ++ "_timestamp") = true := by
    simp [itemTruthy, hts, Val.isFalsy]
  have htr2 : itemTruthy store ("quotes_" ++ lang ++ "_count") = true := by
    simp [itemTruthy, hc, Val.isFalsy, hs]
  have hneeds : needsDataFetch true lastKnown cur store now lang =
      (if c = 0 then decide (now - tv > ONE_DAY)
       else if c < (MIN_QUOTES_FOR_LANG : Int) then decide (now - tv > ONE_DAY)
       else decide (now - tv > 7 * ONE_DAY)) := by
    unfold needsDataFetch
    rw [hchange]
    simp only [Bool.not_true, Bool.false_eq_true, if_false, List.any_cons, List.any_nil,
      hq, htr1, htr2, Bool.not_true, Bool.or_false, Bool.false_or]
    rw [hc, hts]
    simp only [jsParseIntVal, jsDateGetTimeVal, hparse, Option.getD_some]
    by_cases h0 : c = 0
    · simp [h0]
    · simp only [h0, if_false]
      by_cases hlt : c < (MIN_QUOTES_FOR_LANG : Int) <;> simp [hlt]
  refine ⟨?_, ?_, ?_⟩
  · intro h0
    rw [hneeds, if_pos h0]
  · intro hpos hlt
    rw [hneeds, if_neg (by omega)]
    rw [if_pos (by simp [MIN_QUOTES_FOR_LANG]; omega)]
  · intro hge
    rw [hneeds, if_neg (by omega)]
    rw [if_neg (by simp [MIN_QUOTES_FOR_LANG]; omega)]

/-- Witness for C3 at concrete inputs: count 50 (small dataset), age exactly
one day is fresh, one day plus a millisecond is stale. -/
theorem C3_needsDataFetch_staleness_witness :
    needsDataFetch true (some "fr") "fr" storeC3 86400000 "fr" = false ∧
    needsDataFetch true (some "fr") "fr" storeC3 86400001 "fr" = true := by
  constructor
  · have h := (C3_needsDataFetch_staleness (some "fr") "fr" "fr" storeC3 86400000 0 50 "50"
      (by decide) (by decide) (by decide) (by decide) (by decide)).2.1
      (by omega) (by omega)
    rw [h]
    decide
  · have h := (C3_needsDataFetch_staleness (some "fr") "fr" "fr" storeC3 86400001 0 50 "50"
      (by decide) (by decide) (by decide) (by decide) (by decide)).2.1
      (by omega) (by omega)
    rw [h]
    decide

/-- C10: the staleness check is total on malformed cache data — a stored
count that does not parse as an integer behaves as count 0 (the one-day
no-data threshold applies), and an empty string stored under any of the
three required keys is falsy and treated as an absent key, forcing a
fetch. -/
theorem C10_needsDataFetch_malformed (lastKnown : Option String) (cur lang : String)
    (store : Store) (now tv : Int) (s : String)
    (hchange : languageChanged lastKnown cur = false) :
    (itemTruthy store ("quotes_" ++ lang) = true →
      getItem store ("quotes_" ++ lang ++ "_timestamp") = some (.timeV tv) →
      getItem store ("quotes_" ++ lang ++ "_count") = some (.str s) → s ≠ "" →
      jsParseInt s = none →
      needsDataFetch true lastKnown cur store now lang = decide (now - tv > ONE_DAY)) ∧
    (getItem store ("quotes_" ++ lang) = some (.str "") →
      needsDataFetch true lastKnown cur store now lang = true) ∧
    (getItem store ("quotes_" ++ lang ++ "_timestamp") = some (.str "") →
      needsDataFetch true lastKnown cur store now lang = true) ∧
    (getItem store ("quotes_" ++ lang ++ "_count") = some (.str "") →
      needsDataFetch true lastKnown cur store now lang = true) := by
  refine ⟨?_, ?_, ?_, ?_⟩
  · intro hq hts hc hs hparse
    have htr1 : itemTruthy store ("quotes_" ++ lang ++ "_timestamp") = true := by
      simp [itemTruthy, hts, Val.isFalsy]
    have htr2 : itemTruthy store ("quotes_" ++ lang ++ "_count") = true := by
      simp [itemTruthy, hc, Val.isFalsy, hs]
    unfold needsDataFetch
    rw [hchange]
    simp only [Bool.not_true, Bool.false_eq_true, if_false, List.any_cons, List.any_nil,
      hq, htr1, htr2, Bool.not_true, Bool.or_false, Bool.false_or]
    rw [hc, hts]
    simp only [jsParseIntVal, jsDateGetTimeVal, hparse, Option.getD_none]
    rfl
  · intro hq
    unfold needsDataFetch
    rw [hchange]
    simp [itemTruthy, hq, Val.isFalsy]
  · intro hts
    unfold needsDataFetch
    rw [hchange]
    simp [itemTruthy, hts, Val.isFalsy]
  · intro hc
    unfold needsDataFetch
    rw [hchange]
    simp [itemTruthy, hc, Val.isFalsy]

/-- Witness for C10 at concrete inputs: a count of `"abc"` behaves like
count 0 (stale after a day), and an empty-string quotes value forces a
fetch. -/
theorem C10_needsDataFetch_malformed_witness :
    needsDataFetch true (some "fr") "fr" storeC10a 86400001 "fr" = true ∧
    needsDataFetch true (some "fr") "fr" storeC10b 0 "fr" = true := by
  constructor
  · have h := (C10_needsDataFetch_malformed (some "fr") "fr" "fr" storeC10a 86400001 0 "abc"
      (by decide)).1 (by decide) (by decide) (by decide) (by decide) (by decide)
    rw [h]
    decide
  · exact (C10_needsDataFetch_malformed (some "fr") "fr" "fr" storeC10b 0 0 ""
      (by decide)).2.1 (by decide)

/-- C2 (amended): only the successful bulk-fetch path purges the cache:
there, every `quotes_` key that does not contain `quotes_<currentLanguage>`
as a substring — the shared metadata timestamp key excepted — is deleted.
The fallback-provider path and the cached paths perform no purge, so after
a fallback-provider success following a language change the cache can hold
entries of a third language (see the counterexample). -/
theorem C2_bulk_fetch_purges (env : Env) (st : St) (md : Metadata) (qs : List Quote)
    (key : String)
    (hmd : env.metadataResp = .ok md)
    (hq : env.quotesResp (getTargetLanguage env.currentLanguage md) = .ok qs)
    (hcur : env.currentLanguage ≠ "")
    (hk1 : strStarts key "quotes_" = true)
    (hk2 : strContains key ("quotes_" ++ env.currentLanguage) = false)
    (hk3 : key ≠ "quotes_metadata_timestamp") :
    getItem (getQuotesForLanguage env st true).2.1.store key = none := by
  have hpk : quotesPurgeKey env.currentLanguage key = true := by
    simp [quotesPurgeKey, hk1, hk2, hk3]
  have hfetch : fetchPath env ⟨st.store, some env.currentLanguage⟩ =
      (.ok qs,
       ⟨clearOtherLanguageQuotes env.currentLanguage
          (storeQuotesData (getTargetLanguage env.currentLanguage md) qs (some md) env.now
            (noDataSide env md ⟨st.store, some env.currentLanguage⟩).store),
        (noDataSide env md ⟨st.store, some env.currentLanguage⟩).lastKnown⟩,
       [FetchCall.metadata, FetchCall.quotes (getTargetLanguage env.currentLanguage md)]) := by
    unfold fetchPath
    rw [hmd]
    dsimp only
    rw [hq]
    rw [if_neg hcur]
  have hrun : getQuotesForLanguage env st true =
      fetchPath env ⟨st.store, some env.currentLanguage⟩ := by
    unfold getQuotesForLanguage getQuotesInner
    dsimp only
    rw [Bool.true_or, if_pos rfl]
    rw [hfetch]
  rw [hrun, hfetch]
  dsimp only
  rw [getItem_clearOtherLanguageQuotes, if_pos hpk]

/-- Witness for C2 at a concrete input: a successful bulk fetch for `"de"`
deletes the cached `"fr"` entry. -/
theorem C2_bulk_fetch_purges_witness :
    getItem (getQuotesForLanguage envC2w stC2 true).2.1.store "quotes_fr" = none :=
  C2_bulk_fetch_purges envC2w stC2 ⟨"2024", [("de.json", 120)]⟩ [⟨"Q", "A"⟩] "quotes_fr"
    rfl rfl (by decide) (by decide) (by decide) (by decide)

/-- C2 counterexample: the claimed two-language invariant fails on the
fallback-provider path.  After a language change from `"fr"` to `"de"` with
the bulk provider down and the first alternative provider up, the store
keeps its `"fr"` and `"en"` entries and gains a `"de"` entry — three cached
languages, one of which is neither the active language nor English, and no
purge of `"fr"` happened on this language change. -/
theorem C2_cex :
    envC2.currentLanguage = "de" ∧ ("fr" : String) ≠ "de" ∧ ("fr" : String) ≠ "en" ∧
    getItem (getQuotesForLanguage envC2 stC2 false).2.1.store "quotes_fr" ≠ none ∧
    getItem (getQuotesForLanguage envC2 stC2 false).2.1.store "quotes_en" ≠ none ∧
    getItem (getQuotesForLanguage envC2 stC2 false).2.1.store "quotes_de" ≠ none := by
  refine ⟨rfl, by decide, by decide, by decide, by decide, by decide⟩

/-- C4 (amended): offline with no cache entry for a non-English requested
language and no cached English quotes, `getQuotesForLanguage` returns the
hardcoded fallback quote; the primary (staleness-driven) fetch path is
skipped, but the English-recovery branch still attempts the bulk metadata
fetch followed by the three alternative providers — all of which fail
offline — so network fetches are attempted during the call. -/
theorem C4_offline_no_cache (env : Env) (st : St)
    (hoff : env.onLine = false)
    (hen : env.currentLanguage ≠ "en")
    (hcnt : getItem st.store ("quotes_" ++ env.currentLanguage ++ "_count") = none)
    (hnoen : getItem st.store "quotes_en" = none)
    (hmd : ∃ e, env.metadataResp = .error e)
    (hv : ∃ e, env.vercelResp = .error e)
    (hp : ∃ e, env.programmingResp = .error e)
    (hd : ∃ e, env.dummyjsonResp = .error e) :
    (getQuotesForLanguage env st false).1 = .ok [FALLBACK_QUOTE] ∧
    (getQuotesForLanguage env st false).2.2 =
      [FetchCall.metadata, FetchCall.vercel, FetchCall.programming, FetchCall.dummyjson] := by
  obtain ⟨em, hm⟩ := hmd
  obtain ⟨ev, hv⟩ := hv
  obtain ⟨ep, hp⟩ := hp
  obtain ⟨ed, hd⟩ := hd
  have halt : fetchAlternativeQuote env =
      (.error "All alternative quote APIs failed",
       [FetchCall.vercel, FetchCall.programming, FetchCall.dummyjson]) := by
    simp [fetchAlternativeQuote, tryApis, hv, hp, hd]
  have hndf : needsDataFetch env.onLine (some env.currentLanguage) env.currentLanguage
      st.store env.now env.currentLanguage = false := by
    unfold needsDataFetch
    rw [hoff]
    simp
  have hcache : cachePath env ⟨st.store, some env.currentLanguage⟩ =
      (.ok [FALLBACK_QUOTE], ⟨st.store, some env.currentLanguage⟩,
       [FetchCall.metadata, FetchCall.vercel, FetchCall.programming, FetchCall.dummyjson]) := by
    unfold cachePath
    dsimp only
    rw [hcnt]
    rw [if_pos (by exact ⟨rfl, hen⟩)]
    unfold englishFallbackPath getStoredQuotes
    have he : ("quotes_" : String) ++ "en" = "quotes_en" := rfl
    rw [he, hnoen]
    dsimp only
    rw [if_pos (Or.inl rfl)]
    rw [hm]
    dsimp only
    unfold altEnglishPath
    rw [halt]
    rfl
  unfold getQuotesForLanguage getQuotesInner
  dsimp only
  rw [hndf]
  simp only [Bool.or_false, Bool.false_eq_true, if_false]
  rw [hcache]
  exact ⟨rfl, rfl⟩

/-- Witness for C4 at a concrete input: offline with an empty store and
language `"es"`, the call returns the fallback quote after four failed
fetch attempts. -/
theorem C4_offline_no_cache_witness :
    (getQuotesForLanguage envC4 ⟨[], none⟩ false).1 = .ok [FALLBACK_QUOTE] ∧
    (getQuotesForLanguage envC4 ⟨[], none⟩ false).2.2 =
      [FetchCall.metadata, FetchCall.vercel, FetchCall.programming, FetchCall.dummyjson] :=
  C4_offline_no_cache envC4 ⟨[], none⟩ rfl (by decide) rfl rfl
    ⟨"network", rfl⟩ ⟨"network", rfl⟩ ⟨"network", rfl⟩ ⟨"network", rfl⟩

/-- C4 counterexample: the claim asserts that no network fetch is attempted,
but in the offline no-cache scenario the call still attempts the bulk
metadata fetch and all three alternative providers (they fail, and the
hardcoded fallback quote is returned). -/
theorem C4_cex :
    (getQuotesForLanguage envC4 ⟨[], none⟩ false).1 = .ok [FALLBACK_QUOTE] ∧
    (getQuotesForLanguage envC4 ⟨[], none⟩ false).2.2 ≠ [] := by
  refine ⟨by decide, by decide⟩

/-- Evaluation of the outer catch handler when the inner pipeline raised and
both cache reads parse. -/
theorem outer_handler_eval (env : Env) (st : St) (f : Bool) {e : String} {st2 : St}
    {tr : List FetchCall} {o1 o2 : Option (List Quote)}
    (hin : getQuotesInner env st f = (.error e, st2, tr))
    (ho1 : getStoredQuotes st2.store env.currentLanguage = .ok o1)
    (ho2 : getStoredQuotes st2.store "en" = .ok o2) :
    (getQuotesForLanguage env st f).1 =
      .ok (handlerResult o1 o2 (fetchAlternativeQuote env).1) := by
  unfold getQuotesForLanguage
  rw [hin]
  dsimp only
  rw [ho1]
  rcases halt : fetchAlternativeQuote env with ⟨ra, ta⟩
  rcases o1 with _ | l
  · dsimp only
    rw [ho2]
    rcases o2 with _ | l2
    · dsimp only [handlerResult]
      rcases ra with e2 | q <;> rfl
    · dsimp only [handlerResult]
      by_cases hl : l2 ≠ []
      · rw [if_pos hl, if_pos hl]
      · rw [if_neg hl, if_neg hl]
        rcases ra with e2 | q <;> rfl
  · dsimp only [handlerResult]
    by_cases hl : l ≠ []
    · rw [if_pos hl, if_pos hl]
    · rw [if_neg hl, if_neg hl]
      rcases ra with e2 | q <;> rfl

/-- C1 (amended): provided the cached values under `quotes_<language>` and
`quotes_en` are well-formed (absent, empty, or a serialized quote array) and
the language is not the pathological name `"metadata_timestamp"`,
`getQuotesForLanguage` never raises: it returns some quote list, and when
the pipeline raised internally the outer handler returns, in order of
availability, the non-empty cached list for the requested language, else
(when that read is null) the non-empty cached English list, else a quote
from the alternative-provider chain, else the hardcoded fallback quote.
(Without the well-formedness premise the claim fails — `JSON.parse` of a
corrupted cache entry throws inside the handler itself, see the
counterexample.) -/
theorem C1_outer_handler (env : Env) (st : St) (f : Bool)
    (hcur : env.currentLanguage ≠ "metadata_timestamp")
    (h1 : ∃ o, getStoredQuotes st.store env.currentLanguage = .ok o)
    (h2 : ∃ o, getStoredQuotes st.store "en" = .ok o) :
    (∃ qs, (getQuotesForLanguage env st f).1 = .ok qs) ∧
    (∀ e st2 tr, getQuotesInner env st f = (.error e, st2, tr) →
      (∀ l, getStoredQuotes st2.store env.currentLanguage = .ok (some l) → l ≠ [] →
        (getQuotesForLanguage env st f).1 = .ok l) ∧
      (getStoredQuotes st2.store env.currentLanguage = .ok none →
        ∀ l, getStoredQuotes st2.store "en" = .ok (some l) → l ≠ [] →
          (getQuotesForLanguage env st f).1 = .ok l) ∧
      ((getStoredQuotes st2.store env.currentLanguage = .ok (some [])
          ∨ (getStoredQuotes st2.store env.currentLanguage = .ok none ∧
             (getStoredQuotes st2.store "en" = .ok none
               ∨ getStoredQuotes st2.store "en" = .ok (some [])))) →
        (∀ q t2, fetchAlternativeQuote env = (.ok q, t2) →
          (getQuotesForLanguage env st f).1 = .ok [q]) ∧
        (∀ e2 t2, fetchAlternativeQuote env = (.error e2, t2) →
          (getQuotesForLanguage env st f).1 = .ok [FALLBACK_QUOTE]))) := by
  rcases hin : getQuotesInner env st f with ⟨r, st2, tr⟩
  rcases r with e | qs
  · obtain ⟨-, hstore⟩ := getQuotesInner_error env st f hin
    have hr1 : ∃ o, getStoredQuotes st2.store env.currentLanguage = .ok o := by
      rcases hstore with hs | ⟨md, hmd, hne, hs⟩
      · rw [hs]
        exact h1
      · rw [hs, getStoredQuotes_storeNoDataInfo_self _ md env.now st.store hcur]
        exact ⟨some [], rfl⟩
    have hr2 : ∃ o, getStoredQuotes st2.store "en" = .ok o := by
      rcases hstore with hs | ⟨md, hmd, hne, hs⟩
      · rw [hs]
        exact h2
      · rw [hs, getStoredQuotes_storeNoDataInfo_en _ md env.now st.store hne]
        exact h2
    obtain ⟨o1, ho1⟩ := hr1
    obtain ⟨o2, ho2⟩ := hr2
    have heval := outer_handler_eval env st f hin ho1 ho2
    refine ⟨⟨_, heval⟩, ?_⟩
    intro e' st2' tr' heq
    injection heq with heq1 heq2
    injection heq2 with heq2a heq2b
    subst heq2a
    refine ⟨?_, ?_, ?_⟩
    · intro l hl hlne
      rw [ho1] at hl
      injection hl with hl
      subst hl
      rw [heval]
      simp [handlerResult, hlne]
    · intro hnone l hl hlne
      rw [ho1] at hnone
      injection hnone with hnone
      subst hnone
      rw [ho2] at hl
      injection hl with hl
      subst hl
      rw [heval]
      simp [handlerResult, hlne]
    · intro hdeg
      constructor
      · intro q t2 haq
        rw [heval, haq]
        rcases hdeg with hd1 | ⟨hd1, hd2⟩
        · rw [ho1] at hd1
          injection hd1 with hd1
          subst hd1
          simp [handlerResult]
        · rw [ho1] at hd1
          injection hd1 with hd1
          subst hd1
          rcases hd2 with hd2 | hd2 <;>
            (rw [ho2] at hd2; injection hd2 with hd2; subst hd2; simp [handlerResult])
      · intro e2 t2 haq
        rw [heval, haq]
        rcases hdeg with hd1 | ⟨hd1, hd2⟩
        · rw [ho1] at hd1
          injection hd1 with hd1
          subst hd1
          simp [handlerResult]
        · rw [ho1] at hd1
          injection hd1 with hd1
          subst hd1
          rcases hd2 with hd2 | hd2 <;>
            (rw [ho2] at hd2; injection hd2 with hd2; subst hd2; simp [handlerResult])
  · constructor
    · exact ⟨qs, by unfold getQuotesForLanguage; rw [hin]⟩
    · intro e' st2' tr' heq
      injection heq with heq1 heq2
      injection heq1

/-- Witness for C1 at a concrete input: empty store (both cache reads
well-formed), every provider down — the call still returns some quote
list. -/
theorem C1_outer_handler_witness :
    (∃ o, getStoredQuotes ([] : Store) "fr" = .ok o) ∧
    (∃ qs, (getQuotesForLanguage envC1 ⟨[], none⟩ false).1 = .ok qs) := by
  refine ⟨⟨none, rfl⟩, ?_⟩
  exact (C1_outer_handler envC1 ⟨[], none⟩ false (by decide) ⟨none, rfl⟩ ⟨none, rfl⟩).1

/-- C1 counterexample: the claim quantifies over every input state, but when
the inner pipeline fails and `quotes_fr` holds a non-empty string that is
not a serialized quote array, `JSON.parse` inside the outer handler throws,
so `getQuotesForLanguage` itself raises instead of returning a quote
list. -/
theorem C1_cex :
    (getQuotesForLanguage envC1 ⟨[("quotes_fr", Val.str "garbage")], none⟩ false).1 =
      .error "SyntaxError" := by
  decide

end Quotes
